import Mathlib

set_option autoImplicit false
set_option maxRecDepth 8192

/-
  Verification development for the asynchronous job execution and tracking
  layer of the automation-testing platform.

  Embedded components (shallow embedding, transcribed from the Python source):
  * JobStatus / JobResult        — src/services/ai-agent/src/api/schemas.py
  * JobStore operations          — src/services/ai-agent/src/tasks/job_store.py
  * background job wrappers and
    cancel_job endpoint          — src/services/ai-agent/src/api/routes.py
  * get_task_status              — src/services/ai-agent/src/tasks/celery_app.py
  * TestRunner step synthesizers
    and _run_process             — src/backend/app/services/test_runner.py

  Modelling conventions: timestamps (datetime.utcnow()) are abstract Nat clock
  values supplied explicitly to each operation; dict[str, Any] payloads are
  association lists of strings; the Redis client is an optional key-value map
  (none = client unavailable), and each Redis round trip takes an explicit
  Bool telling whether the call succeeds (False = the exception branch that
  the source catches and logs).
-/

namespace AutoTest

/-- Canonical job status enum (schemas.py, class JobStatus). -/
inductive JobStatus where
  | pending
  | running
  | completed
  | failed
deriving DecidableEq, Repr

/-- Opaque structured payload standing for `dict[str, Any]` result data. -/
abbrev Payload := List (String × String)

/-- JobResult record (schemas.py, class JobResult); `created_at` /
`completed_at` are abstract clock values. -/
structure JobResult where
  job_id : String
  status : JobStatus
  created_at : Nat
  completed_at : Option Nat := none
  result : Option Payload := none
  error : Option String := none
deriving DecidableEq, Repr

/-- First-match lookup in an association list (Python dict read / Redis GET). -/
def lookupKey {β : Type} : List (String × β) → String → Option β
  | [], _ => none
  | (k, v) :: rest, key => if k = key then some v else lookupKey rest key

/-- Replace the first binding of a key, appending when absent (Python dict
assignment / Redis SETEX; insertion order of new keys is preserved, matching
dict iteration order). -/
def assocSet {β : Type} : List (String × β) → String → β → List (String × β)
  | [], key, v => [(key, v)]
  | (k, w) :: rest, key, v =>
      if k = key then (k, v) :: rest else (k, w) :: assocSet rest key v

/-- JobStore state (job_store.py): the always-available in-memory dict plus an
optional Redis map (`none` models `self._redis_client = None`).  Redis values
are stored as records directly: `_job_to_dict` / `_dict_to_job` round-trip to
the identity, so the JSON serialization layer is dropped. -/
structure JobStore where
  memory : List (String × JobResult)
  redis : Option (List (String × JobResult))
deriving DecidableEq, Repr

/-- JobStore._save_job: always write the memory dict, then best-effort mirror
to Redis (`saveOk = false` is the caught `Redis save failed` branch). -/
def save_job (st : JobStore) (job : JobResult) (saveOk : Bool) : JobStore :=
  let mem := assocSet st.memory job.job_id job
  match st.redis with
  | none => { st with memory := mem }
  | some r =>
      if saveOk then { memory := mem, redis := some (assocSet r job.job_id job) }
      else { st with memory := mem }

/-- JobStore.get_job: prefer the Redis copy (when the client exists and the
call succeeds and the key is present), otherwise fall back to memory. -/
def get_job (st : JobStore) (job_id : String) (getOk : Bool) : Option JobResult :=
  match st.redis with
  | some r =>
      if getOk then
        match lookupKey r job_id with
        | some j => some j
        | none => lookupKey st.memory job_id
      else lookupKey st.memory job_id
  | none => lookupKey st.memory job_id

/-- JobStore.create_job: a fresh Pending record, saved over whatever was
there. -/
def create_job (st : JobStore) (job_id : String) (now : Nat) (saveOk : Bool) :
    JobResult × JobStore :=
  let job : JobResult := { job_id := job_id, status := .pending, created_at := now }
  (job, save_job st job saveOk)

/-- The field updates of JobStore.update_job: set status (stamping
`completed_at` when the new status is terminal), then overlay result and
error when given.  No terminal-state guard exists in the source. -/
def applyUpdate (job : JobResult) (status? : Option JobStatus)
    (result? : Option Payload) (error? : Option String) (now : Nat) : JobResult :=
  let job1 :=
    match status? with
    | some s =>
        { job with
          status := s,
          completed_at :=
            if s = .completed ∨ s = .failed then some now else job.completed_at }
    | none => job
  let job2 :=
    match result? with
    | some r => { job1 with result := some r }
    | none => job1
  match error? with
  | some e => { job2 with error := some e }
  | none => job2

/-- JobStore.update_job: read-modify-write with no terminal guard; `none` when
the id is unknown. -/
def update_job (st : JobStore) (job_id : String) (status? : Option JobStatus)
    (result? : Option Payload) (error? : Option String) (now : Nat)
    (getOk saveOk : Bool) : Option JobResult × JobStore :=
  match get_job st job_id getOk with
  | none => (none, st)
  | some job =>
      let job3 := applyUpdate job status? result? error? now
      (some job3, save_job st job3 saveOk)

/-- JobStore.mark_running. -/
def mark_running (st : JobStore) (job_id : String) (now : Nat)
    (getOk saveOk : Bool) : Option JobResult × JobStore :=
  update_job st job_id (some .running) none none now getOk saveOk

/-- JobStore.mark_completed. -/
def mark_completed (st : JobStore) (job_id : String) (result : Payload)
    (now : Nat) (getOk saveOk : Bool) : Option JobResult × JobStore :=
  update_job st job_id (some .completed) (some result) none now getOk saveOk

/-- JobStore.mark_failed. -/
def mark_failed (st : JobStore) (job_id : String) (error : String) (now : Nat)
    (getOk saveOk : Bool) : Option JobResult × JobStore :=
  update_job st job_id (some .failed) none (some error) now getOk saveOk

/-- A status is terminal when it is Completed or Failed. -/
def isTerminal (s : JobStatus) : Bool :=
  s = JobStatus.completed || s = JobStatus.failed

/-- JobStore.list_jobs filter test: keep a job when no status filter is given
or its status equals the filter. -/
def statusMatches (filter? : Option JobStatus) (j : JobResult) : Bool :=
  match filter? with
  | none => true
  | some s => j.status = s

/-- The Redis scan phase of JobStore.list_jobs: walk the scanned values in
order, append each one passing the filter, and break as soon as `limit` jobs
are collected (the source checks the length right after each append). -/
def collect_redis (entries : List JobResult) (filter? : Option JobStatus)
    (limit : Nat) (acc : List JobResult) : List JobResult :=
  match entries with
  | [] => acc
  | j :: rest =>
      if statusMatches filter? j then
        let acc2 := acc ++ [j]
        if limit ≤ acc2.length then acc2
        else collect_redis rest filter? limit acc2
      else collect_redis rest filter? limit acc

/-- The memory phase of JobStore.list_jobs: append each memory value that
passes the filter and whose job_id is not already collected, breaking right
after the append that reaches `limit`. -/
def collect_memory (entries : List JobResult) (filter? : Option JobStatus)
    (limit : Nat) (acc : List JobResult) : List JobResult :=
  match entries with
  | [] => acc
  | j :: rest =>
      if statusMatches filter? j && !(acc.any fun a => a.job_id == j.job_id) then
        let acc2 := acc ++ [j]
        if limit ≤ acc2.length then acc2
        else collect_memory rest filter? limit acc2
      else collect_memory rest filter? limit acc

/-- One step of the stable descending sort on `created_at`
(`jobs.sort(key=..., reverse=True)`): insert a later element after every
element with a greater-or-equal key. -/
def insertDesc (j : JobResult) : List JobResult → List JobResult
  | [] => [j]
  | k :: rest =>
      if k.created_at < j.created_at then j :: k :: rest
      else k :: insertDesc j rest

/-- Stable sort by `created_at` descending. -/
def sortDesc (l : List JobResult) : List JobResult :=
  l.foldl (fun acc j => insertDesc j acc) []

/-- JobStore.list_jobs: Redis scan phase (skipped when the client is absent;
`scanOk = false` is the caught `Redis scan failed` branch), memory merge with
id-deduplication against the already-collected jobs, sort by `created_at`
descending, and cap at `limit`. -/
def list_jobs (st : JobStore) (filter? : Option JobStatus) (limit : Nat)
    (scanOk : Bool) : List JobResult :=
  let redisJobs : List JobResult :=
    match st.redis with
    | some r => if scanOk then collect_redis (r.map Prod.snd) filter? limit [] else []
    | none => []
  let allJobs := collect_memory (st.memory.map Prod.snd) filter? limit redisJobs
  (sortDesc allJobs).take limit

/-- Values held on the Redis side of a store (empty when the client is
absent). -/
def redisValues (st : JobStore) : List JobResult :=
  match st.redis with
  | some r => r.map Prod.snd
  | none => []

/-- The jobs collected by the Redis scan phase of list_jobs (empty when the
client is absent). -/
def redisCollected (st : JobStore) (filter? : Option JobStatus) (limit : Nat) :
    List JobResult :=
  match st.redis with
  | some r => collect_redis (r.map Prod.snd) filter? limit []
  | none => []

/- ------------------------------------------------------------------
   Dispatcher wrappers and cancellation (routes.py)
   ------------------------------------------------------------------ -/

/-- Outcome of one awaited unit of work: a normal return carrying the
serialized payload, or a raised exception already stringified (`str(e)`). -/
inductive WorkOutcome where
  | ok (payload : Payload)
  | exc (msg : String)
deriving DecidableEq, Repr

/-- routes.py run_analysis_job: mark_running, await the work, then
mark_completed on normal return or mark_failed on any exception.  `t1`/`t2`
are the clock values of the two writes and the Bool flags the Redis round-trip
outcomes of each store call. -/
def run_analysis_job (st : JobStore) (job_id : String) (outcome : WorkOutcome)
    (t1 t2 : Nat) (g1 s1 g2 s2 : Bool) : JobStore :=
  let st1 := (mark_running st job_id t1 g1 s1).2
  match outcome with
  | .ok p => (mark_completed st1 job_id p t2 g2 s2).2
  | .exc e => (mark_failed st1 job_id e t2 g2 s2).2

/-- routes.py run_scenario_build_job: structurally identical to
run_analysis_job (only the awaited agent differs, abstracted into the
outcome). -/
def run_scenario_build_job (st : JobStore) (job_id : String)
    (outcome : WorkOutcome) (t1 t2 : Nat) (g1 s1 g2 s2 : Bool) : JobStore :=
  let st1 := (mark_running st job_id t1 g1 s1).2
  match outcome with
  | .ok p => (mark_completed st1 job_id p t2 g2 s2).2
  | .exc e => (mark_failed st1 job_id e t2 g2 s2).2

/-- Response of the DELETE /jobs/job_id endpoint. -/
inductive CancelResponse where
  | notFound
  | conflict
  | cancelled
deriving DecidableEq, Repr

/-- HTTP status code carried by each cancel response. -/
def cancelCode : CancelResponse → Nat
  | .notFound => 404
  | .conflict => 400
  | .cancelled => 200

/-- routes.py cancel_job: 404 on unknown id, 400 on a terminal record (before
any write), otherwise best-effort Celery revoke (no store effect) followed by
mark_failed with "Job cancelled by user". -/
def cancel_job (st : JobStore) (job_id : String) (now : Nat)
    (g0 g1 s1 : Bool) : CancelResponse × JobStore :=
  match get_job st job_id g0 with
  | none => (.notFound, st)
  | some job =>
      if job.status = .completed ∨ job.status = .failed then (.conflict, st)
      else (.cancelled, (mark_failed st job_id "Job cancelled by user" now g1 s1).2)

/- ------------------------------------------------------------------
   Distributed-queue status query (celery_app.py, get_task_status)
   ------------------------------------------------------------------ -/

/-- The ad-hoc dict literal `status_map` of get_task_status. -/
def status_map : List (String × String) :=
  [("PENDING", "pending"), ("STARTED", "running"), ("SUCCESS", "completed"),
   ("FAILURE", "failed"), ("REVOKED", "failed")]

/-- Celery READY_STATES: the states in which `result.ready()` is true. -/
def ready_states : List String := ["SUCCESS", "FAILURE", "REVOKED"]

/-- Python `str.lower()` on the ASCII state strings at play. -/
def strLower (s : String) : String := ⟨s.data.map Char.toLower⟩

/-- Response dict of get_task_status. -/
structure TaskStatusResponse where
  task_id : String
  status : String
  result : Option String
  error : Option String
deriving DecidableEq, Repr

/-- celery_app.py get_task_status, as a function of the task's native state
string and its (stringified) result payload.  `status_map.get(x, x.lower())`
becomes a lookup with a `toLower` default; `result.ready()` is state
membership in `ready_states`; `result.failed()` is `state = "FAILURE"`. -/
def get_task_status (task_id : String) (state : String)
    (payload : Option String) : TaskStatusResponse :=
  { task_id := task_id,
    status := (lookupKey status_map state).getD (strLower state),
    result := if ready_states.contains state then payload else none,
    error := if state = "FAILURE" then some (payload.getD "None") else none }

/- ------------------------------------------------------------------
   Step synthesizers (test_runner.py, _steps_to_cypress /
   _steps_to_playwright)
   ------------------------------------------------------------------ -/

/-- One input step.  The source reads a dict with
`step.get("type", "")`, `step.get("selector", "")`, `step.get("value", "")`,
`step.get("url", base_url)`, `step.get("duration", 1000)`; the string
defaults are folded into the field types and the dynamic defaults stay
optional.  The spec calls the `type` key `action`. -/
structure Step where
  type : String := ""
  selector : String := ""
  value : String := ""
  url : Option String := none
  duration : Option Nat := none
deriving DecidableEq, Repr

/-- The per-step body of _steps_to_cypress: zero or one emitted statement.
Note the elif chain handles navigate, click, type, verify and wait only. -/
def stepToCypressLines (base_url : String) (step : Step) : List String :=
  if step.type = "navigate" then
    ["    cy.visit(\x27" ++ step.url.getD base_url ++ "\x27);"]
  else if step.type = "click" then
    ["    cy.get(\x27" ++ step.selector ++ "\x27).click();"]
  else if step.type = "type" then
    ["    cy.get(\x27" ++ step.selector ++ "\x27).type(\x27" ++ step.value ++ "\x27);"]
  else if step.type = "verify" then
    ["    cy.get(\x27" ++ step.selector ++ "\x27).should(\x27exist\x27);"]
  else if step.type = "wait" then
    ["    cy.wait(" ++ toString (step.duration.getD 1000) ++ ");"]
  else []

/-- test_runner.py _steps_to_cypress: boilerplate, the per-step statements in
input order, closing braces, joined with newlines. -/
def steps_to_cypress (steps : List Step) (base_url : String) : String :=
  String.intercalate "\n"
    (["describe(\x27Test\x27, () => \x7b",
      "  it(\x27runs the test steps\x27, () => \x7b"]
      ++ (steps.map (stepToCypressLines base_url)).flatten
      ++ ["  \x7d);", "\x7d);"])

/-- The per-step body of _steps_to_playwright: zero or one emitted statement;
same five recognized actions. -/
def stepToPlaywrightLines (base_url : String) (step : Step) : List String :=
  if step.type = "navigate" then
    ["  await page.goto(\x27" ++ step.url.getD base_url ++ "\x27);"]
  else if step.type = "click" then
    ["  await page.click(\x27" ++ step.selector ++ "\x27);"]
  else if step.type = "type" then
    ["  await page.fill(\x27" ++ step.selector ++ "\x27, \x27" ++ step.value ++ "\x27);"]
  else if step.type = "verify" then
    ["  await expect(page.locator(\x27" ++ step.selector ++ "\x27)).toBeVisible();"]
  else if step.type = "wait" then
    ["  await page.waitForTimeout(" ++ toString (step.duration.getD 1000) ++ ");"]
  else []

/-- test_runner.py _steps_to_playwright. -/
def steps_to_playwright (steps : List Step) (base_url : String) : String :=
  String.intercalate "\n"
    (["const \x7b test, expect \x7d = require(\x27@playwright/test\x27);",
      "",
      "test(\x27runs the test steps\x27, async (\x7b page \x7d) => \x7b"]
      ++ (steps.map (stepToPlaywrightLines base_url)).flatten
      ++ ["\x7d);"])

/- ------------------------------------------------------------------
   Process runner (test_runner.py, TestRunner._run_process)
   ------------------------------------------------------------------ -/

/-- Result dict of _run_process. -/
structure RunResult where
  success : Bool
  stdout : String
  stderr : String
  exit_code : Int
  error : Option String
deriving DecidableEq, Repr

/-- Possible fates of the spawned subprocess as observed by _run_process:
normal exit with a return code and captured streams, expiry of the
`asyncio.wait_for` timeout, a FileNotFoundError at launch, or any other
raised exception (already stringified). -/
inductive ProcOutcome where
  | exited (returncode : Int) (stdout stderr : String)
  | timedOut
  | launchNotFound
  | raised (msg : String)
deriving DecidableEq, Repr

/-- test_runner.py _run_process: the timeout branch kills the process and
returns the fixed timeout dict; a normal exit reports success iff the return
code is zero ("Test failed" otherwise); FileNotFoundError and any other
exception map to the −1 dicts. -/
def run_process : ProcOutcome → RunResult
  | .timedOut =>
      { success := false, stdout := "", stderr := "",
        exit_code := -1, error := some "Test timed out" }
  | .exited rc out err =>
      { success := rc == 0, stdout := out, stderr := err,
        exit_code := rc,
        error := if rc == 0 then none else some "Test failed" }
  | .launchNotFound =>
      { success := false, stdout := "", stderr := "",
        exit_code := -1, error := some "npx not found. Make sure Node.js is installed." }
  | .raised m =>
      { success := false, stdout := "", stderr := "",
        exit_code := -1, error := some m }

/- ------------------------------------------------------------------
   Substring helper used to state "error contains ..."
   ------------------------------------------------------------------ -/

/-- Character-list prefix test. -/
def leadsWith : List Char → List Char → Bool
  | _, [] => true
  | [], _ :: _ => false
  | a :: as, b :: bs => a == b && leadsWith as bs

/-- Character-list substring test. -/
def hasSub : List Char → List Char → Bool
  | [], pat => leadsWith [] pat
  | s@(_ :: rest), pat => leadsWith s pat || hasSub rest pat

/-- String substring test (`pat in s` in Python). -/
def strContains (s pat : String) : Bool :=
  hasSub s.data pat.data

/- ------------------------------------------------------------------
   Trace semantics of the store operations (for reachability claims)
   ------------------------------------------------------------------ -/

/-- One JobStore operation of the lifecycle surface, with its clock value. -/
inductive StoreOp where
  | create (id : String) (now : Nat)
  | markRunning (id : String) (now : Nat)
  | markCompleted (id : String) (r : Payload) (now : Nat)
  | markFailed (id : String) (e : String) (now : Nat)
deriving DecidableEq, Repr

/-- Apply one operation (Redis round trips taken as succeeding; with
`redis = none` the flags are irrelevant anyway). -/
def apply_op (st : JobStore) : StoreOp → JobStore
  | .create id now => (create_job st id now true).2
  | .markRunning id now => (mark_running st id now true true).2
  | .markCompleted id r now => (mark_completed st id r now true true).2
  | .markFailed id e now => (mark_failed st id e now true true).2

/-- Run a sequence of operations. -/
def run_ops (st : JobStore) : List StoreOp → JobStore
  | [] => st
  | op :: rest => run_ops (apply_op st op) rest

/-- An operation respects the terminal discipline when it is a create, or a
mark whose target is absent or not yet terminal. -/
def opOk (st : JobStore) : StoreOp → Bool
  | .create _ _ => true
  | .markRunning id _ =>
      match lookupKey st.memory id with
      | some j => !(isTerminal j.status)
      | none => true
  | .markCompleted id _ _ =>
      match lookupKey st.memory id with
      | some j => !(isTerminal j.status)
      | none => true
  | .markFailed id _ _ =>
      match lookupKey st.memory id with
      | some j => !(isTerminal j.status)
      | none => true

/-- A whole trace respects the terminal discipline. -/
def ops_ok (st : JobStore) : List StoreOp → Bool
  | [] => true
  | op :: rest => opOk st op && ops_ok (apply_op st op) rest

/-- The store with no records and no Redis client. -/
def emptyStore : JobStore := { memory := [], redis := none }

/-- Every key of the memory dict and of the Redis map binds a record carrying
that key as its job_id (all records are saved under their own job_id, so every
reachable store satisfies this). -/
def keyConsistent (st : JobStore) : Prop :=
  (∀ id j, lookupKey st.memory id = some j → j.job_id = id) ∧
  (∀ r, st.redis = some r → ∀ id j, lookupKey r id = some j → j.job_id = id)

/-- Per-record invariant claimed by the spec, strengthened per status so that
it is inductive over disciplined traces. -/
def goodRec (j : JobResult) : Prop :=
  (j.status = .pending → j.result = none ∧ j.error = none) ∧
  (j.status = .running → j.result = none ∧ j.error = none) ∧
  (j.status = .completed → j.result ≠ none ∧ j.error = none) ∧
  (j.status = .failed → j.error ≠ none ∧ j.result = none)

/-- Store-wide invariant for the memory-backed configuration. -/
def goodStore (st : JobStore) : Prop :=
  st.redis = none ∧
  ∀ id j, lookupKey st.memory id = some j → j.job_id = id ∧ goodRec j

/- ------------------------------------------------------------------
   Concrete inputs used by counterexamples and witnesses
   ------------------------------------------------------------------ -/

/-- A memory-backed store holding one already-Failed record. -/
def c1_store : JobStore :=
  { memory := [("a", { job_id := "a", status := .failed, created_at := 0,
                       completed_at := some 1, error := some "boom" })],
    redis := none }

/-- A trace with two terminal marks on the same id (a duplicate completion
signal followed by a late failure signal). -/
def c2_ops : List StoreOp :=
  [.create "a" 0, .markCompleted "a" [("k", "v")] 1, .markFailed "a" "boom" 2]

/-- The record produced by `c2_ops` for id "a". -/
def c2_bad : JobResult :=
  { job_id := "a", status := .failed, created_at := 0, completed_at := some 2,
    result := some [("k", "v")], error := some "boom" }

/-- A disciplined trace: create, mark running, one terminal mark. -/
def c2w_ops : List StoreOp :=
  [.create "a" 0, .markRunning "a" 1, .markCompleted "a" [("k", "v")] 2]

/-- The record produced by `c2w_ops` for id "a". -/
def c2w_rec : JobResult :=
  { job_id := "a", status := .completed, created_at := 0, completed_at := some 2,
    result := some [("k", "v")], error := none }

/-- A memory-backed store holding one Pending record (a just-created job). -/
def c3_store : JobStore :=
  { memory := [("a", { job_id := "a", status := .pending, created_at := 0 })],
    redis := none }

/-- A memory-backed store holding one Running record. -/
def c4_store : JobStore :=
  { memory := [("a", { job_id := "a", status := .running, created_at := 0 })],
    redis := none }

/-- A step whose action is "select". -/
def select_step : Step :=
  { type := "select", selector := "#dropdown", value := "opt2" }

/-- The concrete step list of the determinism property. -/
def c8_steps : List Step :=
  [ { type := "navigate", url := some "https://x" },
    { type := "click", selector := "#btn" },
    { type := "type", selector := "#inp", value := "hello" },
    { type := "wait", duration := some 500 } ]

/-- Redis-backed store where the job was created (mirrored to Redis) and then
marked completed while the Redis save failed: the memory copy is Completed,
the Redis copy still Pending. -/
def c9_store : JobStore :=
  (mark_completed (create_job { memory := [], redis := some [] } "a" 0 true).2
    "a" [("k", "v")] 1 true false).2

/-- The stale Redis-side copy held by `c9_store`. -/
def c9_stale : JobResult := { job_id := "a", status := .pending, created_at := 0 }

/-- The fresh memory-side copy held by `c9_store`. -/
def c9_fresh : JobResult :=
  { job_id := "a", status := .completed, created_at := 0, completed_at := some 1,
    result := some [("k", "v")] }

/-- A store for the C9 witness: Redis holds two records, memory shares one id
with Redis and adds a third. -/
def c9w_store : JobStore :=
  { memory := [("a", { job_id := "a", status := .completed, created_at := 5,
                       completed_at := some 6, result := some [] }),
               ("c", { job_id := "c", status := .completed, created_at := 9,
                       completed_at := some 9, result := some [] })],
    redis := some [("a", { job_id := "a", status := .running, created_at := 5 }),
                   ("b", { job_id := "b", status := .completed, created_at := 7,
                           completed_at := some 8, result := some [] })] }

/- ==================================================================
   Helper lemmas
   ================================================================== -/

theorem lookupKey_assocSet {β : Type} (l : List (String × β)) (k k' : String) (v : β) :
    lookupKey (assocSet l k v) k' = if k = k' then some v else lookupKey l k' := by
  induction l with
  | nil => simp [assocSet, lookupKey]
  | cons hd tl ih =>
      obtain ⟨hk, hv⟩ := hd
      simp only [assocSet]
      by_cases h1 : hk = k
      · subst h1
        rw [if_pos rfl]
        by_cases h2 : hk = k' <;> simp [lookupKey, h2]
      · rw [if_neg h1]
        simp only [lookupKey, ih]
        by_cases h2 : hk = k'
        · subst h2
          have h3 : ¬(k = hk) := fun h => h1 h.symm
          simp [h3]
        · simp [h2]

theorem save_job_eq_none (mem : List (String × JobResult)) (job : JobResult)
    (sv : Bool) :
    save_job ⟨mem, none⟩ job sv = ⟨assocSet mem job.job_id job, none⟩ := rfl

theorem save_job_eq_some (mem : List (String × JobResult))
    (r : List (String × JobResult)) (job : JobResult) (sv : Bool) :
    save_job ⟨mem, some r⟩ job sv =
      ⟨assocSet mem job.job_id job,
       some (if sv then assocSet r job.job_id job else r)⟩ := by
  cases sv <;> rfl

theorem save_job_memory (st : JobStore) (job : JobResult) (sv : Bool) :
    (save_job st job sv).memory = assocSet st.memory job.job_id job := by
  obtain ⟨mem, red⟩ := st
  cases red with
  | none => rfl
  | some r => rw [save_job_eq_some]

theorem save_job_redis_none (st : JobStore) (job : JobResult) (sv : Bool)
    (h : st.redis = none) : (save_job st job sv).redis = none := by
  obtain ⟨mem, red⟩ := st
  cases red with
  | none => rfl
  | some r => exact absurd h (by simp)

theorem get_job_redis_none (st : JobStore) (id : String) (g : Bool)
    (h : st.redis = none) : get_job st id g = lookupKey st.memory id := by
  obtain ⟨mem, red⟩ := st
  cases red with
  | none => rfl
  | some r => exact absurd h (by simp)

theorem get_job_isSome (st : JobStore) (id : String) (j : JobResult) (g : Bool)
    (hm : lookupKey st.memory id = some j) :
    ∃ j0, get_job st id g = some j0 := by
  obtain ⟨mem, red⟩ := st
  cases red with
  | none => exact ⟨j, hm⟩
  | some r =>
      cases g with
      | false => exact ⟨j, hm⟩
      | true =>
          cases hl : lookupKey r id with
          | none =>
              refine ⟨j, ?_⟩
              simp only [get_job, hl]
              exact hm
          | some j0 =>
              refine ⟨j0, ?_⟩
              simp [get_job, hl]

theorem get_job_id (st : JobStore) (id : String) (j0 : JobResult) (g : Bool)
    (hk : keyConsistent st) (h : get_job st id g = some j0) : j0.job_id = id := by
  obtain ⟨mem, red⟩ := st
  cases red with
  | none => exact hk.1 id j0 h
  | some r =>
      cases g with
      | false => exact hk.1 id j0 h
      | true =>
          simp only [get_job, if_pos rfl] at h
          cases hl : lookupKey r id with
          | none =>
              rw [hl] at h
              exact hk.1 id j0 h
          | some j1 =>
              rw [hl] at h
              cases h
              exact hk.2 r rfl id j0 hl

theorem keyConsistent_assocSet (l : List (String × JobResult)) (job : JobResult)
    (hl : ∀ id j, lookupKey l id = some j → j.job_id = id) :
    ∀ id j, lookupKey (assocSet l job.job_id job) id = some j → j.job_id = id := by
  intro id j h
  rw [lookupKey_assocSet] at h
  by_cases he : job.job_id = id
  · rw [if_pos he] at h
    cases h
    exact he
  · rw [if_neg he] at h
    exact hl id j h

theorem keyConsistent_save (st : JobStore) (job : JobResult) (sv : Bool)
    (hk : keyConsistent st) : keyConsistent (save_job st job sv) := by
  obtain ⟨mem, red⟩ := st
  obtain ⟨hk1, hk2⟩ := hk
  cases red with
  | none =>
      rw [save_job_eq_none]
      exact ⟨keyConsistent_assocSet _ _ hk1, fun r h => Option.noConfusion h⟩
  | some r =>
      rw [save_job_eq_some]
      refine ⟨keyConsistent_assocSet _ _ hk1, ?_⟩
      intro r' h
      simp only [Option.some.injEq] at h
      subst h
      cases sv with
      | false => exact hk2 r rfl
      | true => exact keyConsistent_assocSet r job (hk2 r rfl)

theorem applyUpdate_job_id (job : JobResult) (s? : Option JobStatus)
    (r? : Option Payload) (e? : Option String) (now : Nat) :
    (applyUpdate job s? r? e? now).job_id = job.job_id := by
  unfold applyUpdate
  cases s? <;> cases r? <;> cases e? <;> rfl

/- ==================================================================
   C1 — terminal writes
   ================================================================== -/

/-- C1 counterexample: on a store whose record "a" is already Failed (with its
error set), `mark_completed` is not a no-op — it returns a record whose
status, completed_at and result have all changed (and whose stale error is
still attached), contradicting the first-write-wins claim. -/
theorem c1_counterexample :
    lookupKey c1_store.memory "a" =
      some { job_id := "a", status := .failed, created_at := 0,
             completed_at := some 1, result := none, error := some "boom" } ∧
    (mark_completed c1_store "a" [("k", "v")] 2 true true).1 =
      some { job_id := "a", status := .completed, created_at := 0,
             completed_at := some 2, result := some [("k", "v")],
             error := some "boom" } ∧
    (mark_completed c1_store "a" [("k", "v")] 2 true true).1 ≠
      some { job_id := "a", status := .failed, created_at := 0,
             completed_at := some 1, result := none, error := some "boom" } := by
  decide

/-- C1 (amended): terminal writes are last-write-wins, not first-write-wins.
On a record that is already Completed or Failed, `mark_running` resets the
status to Running (leaving completed_at, result and error in place),
`mark_completed` overwrites status, completed_at and result (keeping any
stale error), and `mark_failed` overwrites status, completed_at and error
(keeping any stale result). -/
theorem c1_terminal_writes_overwrite :
    ∀ (st : JobStore) (id : String) (j : JobResult) (r : Payload) (e : String)
      (t : Nat),
      st.redis = none → lookupKey st.memory id = some j →
      isTerminal j.status = true →
      (mark_running st id t true true).1 = some { j with status := .running } ∧
      (mark_completed st id r t true true).1 =
        some { j with status := .completed, completed_at := some t,
                      result := some r } ∧
      (mark_failed st id e t true true).1 =
        some { j with status := .failed, completed_at := some t,
                      error := some e } := by
  intro st id j r e t hr hm _ht
  have hg : get_job st id true = some j := by rw [get_job_redis_none st id true hr, hm]
  refine ⟨?_, ?_, ?_⟩ <;>
    simp [mark_running, mark_completed, mark_failed, update_job, hg, applyUpdate]

/-- C1 amended witness: the amended behavior evaluated on the concrete
already-Failed store. -/
theorem c1_amended_witness :
    (mark_running c1_store "a" 5 true true).1 =
      some { job_id := "a", status := .running, created_at := 0,
             completed_at := some 1, result := none, error := some "boom" } ∧
    (mark_completed c1_store "a" [("k", "v")] 5 true true).1 =
      some { job_id := "a", status := .completed, created_at := 0,
             completed_at := some 5, result := some [("k", "v")],
             error := some "boom" } ∧
    (mark_failed c1_store "a" "late" 5 true true).1 =
      some { job_id := "a", status := .failed, created_at := 0,
             completed_at := some 5, result := none, error := some "late" } :=
  c1_terminal_writes_overwrite c1_store "a"
    { job_id := "a", status := .failed, created_at := 0,
      completed_at := some 1, result := none, error := some "boom" }
    [("k", "v")] "late" 5 rfl (by decide) (by decide)

/- ==================================================================
   C2 — result/error field invariant
   ================================================================== -/

theorem goodStore_save (st : JobStore) (job : JobResult) (sv : Bool)
    (hg : goodStore st) (hj : goodRec job) : goodStore (save_job st job sv) := by
  obtain ⟨hr, hinv⟩ := hg
  refine ⟨save_job_redis_none _ _ _ hr, ?_⟩
  intro id' j' h
  rw [save_job_memory, lookupKey_assocSet] at h
  by_cases he : job.job_id = id'
  · rw [if_pos he] at h
    cases h
    exact ⟨he, hj⟩
  · rw [if_neg he] at h
    exact hinv id' j' h

theorem nonterminal_fields (j : JobResult) (hj : goodRec j)
    (ht : isTerminal j.status = false) : j.result = none ∧ j.error = none := by
  cases hst : j.status with
  | pending => exact hj.1 hst
  | running => exact hj.2.1 hst
  | completed => rw [hst] at ht; exact absurd ht (by decide)
  | failed => rw [hst] at ht; exact absurd ht (by decide)

theorem goodStore_apply_op (st : JobStore) (op : StoreOp)
    (hg : goodStore st) (ho : opOk st op = true) : goodStore (apply_op st op) := by
  have hr := hg.1
  cases op with
  | create id now =>
      apply goodStore_save st _ true hg
      refine ⟨fun _ => ⟨rfl, rfl⟩, fun h => ?_, fun h => ?_, fun h => ?_⟩ <;>
        simp at h
  | markRunning id now =>
      show goodStore (mark_running st id now true true).2
      simp only [mark_running, update_job]
      rw [get_job_redis_none st id true hr]
      cases hm : lookupKey st.memory id with
      | none => exact hg
      | some j =>
          apply goodStore_save st _ true hg
          have ht : isTerminal j.status = false := by
            simpa [opOk, hm] using ho
          obtain ⟨hres, herr⟩ :=
            nonterminal_fields j (hg.2 id j hm).2 ht
          refine ⟨fun h => ?_, fun _ => ⟨hres, herr⟩, fun h => ?_, fun h => ?_⟩ <;>
            simp [applyUpdate] at h
  | markCompleted id r now =>
      show goodStore (mark_completed st id r now true true).2
      simp only [mark_completed, update_job]
      rw [get_job_redis_none st id true hr]
      cases hm : lookupKey st.memory id with
      | none => exact hg
      | some j =>
          apply goodStore_save st _ true hg
          have ht : isTerminal j.status = false := by
            simpa [opOk, hm] using ho
          obtain ⟨hres, herr⟩ :=
            nonterminal_fields j (hg.2 id j hm).2 ht
          refine ⟨fun h => ?_, fun h => ?_, fun _ => ⟨fun h => ?_, herr⟩,
                  fun h => ?_⟩ <;>
            simp [applyUpdate] at h
  | markFailed id e now =>
      show goodStore (mark_failed st id e now true true).2
      simp only [mark_failed, update_job]
      rw [get_job_redis_none st id true hr]
      cases hm : lookupKey st.memory id with
      | none => exact hg
      | some j =>
          apply goodStore_save st _ true hg
          have ht : isTerminal j.status = false := by
            simpa [opOk, hm] using ho
          obtain ⟨hres, herr⟩ :=
            nonterminal_fields j (hg.2 id j hm).2 ht
          refine ⟨fun h => ?_, fun h => ?_, fun h => ?_,
                  fun _ => ⟨fun h => ?_, hres⟩⟩ <;>
            simp [applyUpdate] at h

theorem goodStore_run_ops (st : JobStore) (ops : List StoreOp)
    (hg : goodStore st) (ho : ops_ok st ops = true) : goodStore (run_ops st ops) := by
  induction ops generalizing st with
  | nil => exact hg
  | cons op rest ih =>
      rw [ops_ok, Bool.and_eq_true] at ho
      exact ih (apply_op st op) (goodStore_apply_op st op hg ho.1) ho.2

/-- C2 counterexample: the reachable trace create, markCompleted, markFailed
(a duplicate terminal signal) produces a record whose result and error are
both set while its status is Failed — refuting "result is set only when
Completed" and "result and error are never both set". -/
theorem c2_counterexample :
    lookupKey (run_ops emptyStore c2_ops).memory "a" = some c2_bad ∧
    c2_bad.result ≠ none ∧ c2_bad.error ≠ none ∧ c2_bad.status ≠ .completed := by
  decide

/-- C2 (amended): the claimed invariant — result set only when Completed,
error set only when Failed, never both — holds for every record reachable
from the empty store by traces that respect the terminal discipline (no
markRunning/markCompleted/markFailed applied to an id whose record is already
terminal).  The unrestricted claim fails because a second terminal mark
overlays its field on the first (see the counterexample). -/
theorem c2_invariant_under_discipline :
    ∀ (ops : List StoreOp), ops_ok emptyStore ops = true →
      ∀ (id : String) (j : JobResult),
        lookupKey (run_ops emptyStore ops).memory id = some j →
        (j.result ≠ none → j.status = .completed) ∧
        (j.error ≠ none → j.status = .failed) ∧
        ¬(j.result ≠ none ∧ j.error ≠ none) := by
  intro ops ho id j hm
  have hg : goodStore (run_ops emptyStore ops) :=
    goodStore_run_ops emptyStore ops ⟨rfl, fun _ _ h => by simp [lookupKey] at h⟩ ho
  have hj := (hg.2 id j hm).2
  have hres : j.result ≠ none → j.status = .completed := by
    intro hresult
    cases hst : j.status with
    | pending => exact absurd (hj.1 hst).1 hresult
    | running => exact absurd (hj.2.1 hst).1 hresult
    | completed => rfl
    | failed => exact absurd (hj.2.2.2 hst).2 hresult
  have herr : j.error ≠ none → j.status = .failed := by
    intro herror
    cases hst : j.status with
    | pending => exact absurd (hj.1 hst).2 herror
    | running => exact absurd (hj.2.1 hst).2 herror
    | completed => exact absurd (hj.2.2.1 hst).2 herror
    | failed => rfl
  refine ⟨hres, herr, ?_⟩
  rintro ⟨h1, h2⟩
  have hc := hres h1
  have hf := herr h2
  rw [hc] at hf
  simp at hf

/-- C2 amended witness: the disciplined trace create → markRunning →
markCompleted satisfies the invariant at its resulting record. -/
theorem c2_amended_witness :
    ops_ok emptyStore c2w_ops = true ∧
    lookupKey (run_ops emptyStore c2w_ops).memory "a" = some c2w_rec ∧
    ((c2w_rec.result ≠ none → c2w_rec.status = .completed) ∧
     (c2w_rec.error ≠ none → c2w_rec.status = .failed) ∧
     ¬(c2w_rec.result ≠ none ∧ c2w_rec.error ≠ none)) :=
  ⟨by decide, by decide,
   c2_invariant_under_discipline c2w_ops (by decide) "a" c2w_rec (by decide)⟩

/- ==================================================================
   C10 — create_job replaces existing records
   ================================================================== -/

/-- C10: create_job enforces no id uniqueness — on an id already present with
any record whatsoever, it returns a fresh Pending record whose created_at is
the current clock and whose completed_at, result and error are unset, and
stores it over the previous record in the memory map. -/
theorem c10_create_overwrites :
    ∀ (st : JobStore) (id : String) (j : JobResult) (now : Nat) (sOk : Bool),
      lookupKey st.memory id = some j →
      (create_job st id now sOk).1 =
        { job_id := id, status := .pending, created_at := now,
          completed_at := none, result := none, error := none } ∧
      lookupKey (create_job st id now sOk).2.memory id =
        some { job_id := id, status := .pending, created_at := now,
               completed_at := none, result := none, error := none } := by
  intro st id j now sOk _hm
  refine ⟨rfl, ?_⟩
  show lookupKey (save_job st _ sOk).memory id = _
  rw [save_job_memory, lookupKey_assocSet]
  simp

/- ==================================================================
   C3 — wrapper always delivers a terminal status
   ================================================================== -/

theorem update_job_memory_lookup (st : JobStore) (id : String) (j0 : JobResult)
    (s? : Option JobStatus) (r? : Option Payload) (e? : Option String)
    (now : Nat) (g sv : Bool)
    (hg : get_job st id g = some j0) (hid : j0.job_id = id) :
    lookupKey (update_job st id s? r? e? now g sv).2.memory id =
      some (applyUpdate j0 s? r? e? now) := by
  simp only [update_job, hg]
  rw [save_job_memory, lookupKey_assocSet, applyUpdate_job_id, hid, if_pos rfl]

theorem update_job_keyConsistent (st : JobStore) (id : String)
    (s? : Option JobStatus) (r? : Option Payload) (e? : Option String)
    (now : Nat) (g sv : Bool) (hk : keyConsistent st) :
    keyConsistent (update_job st id s? r? e? now g sv).2 := by
  simp only [update_job]
  cases hg : get_job st id g with
  | none => exact hk
  | some j0 => exact keyConsistent_save st _ sv hk

theorem update_job_redis_none (st : JobStore) (id : String)
    (s? : Option JobStatus) (r? : Option Payload) (e? : Option String)
    (now : Nat) (g sv : Bool) (hr : st.redis = none) :
    (update_job st id s? r? e? now g sv).2.redis = none := by
  simp only [update_job]
  cases hg : get_job st id g with
  | none => exact hr
  | some j0 => exact save_job_redis_none st _ sv hr

theorem keyConsistent_single (k : String) (j : JobResult) (hj : j.job_id = k) :
    keyConsistent ⟨[(k, j)], none⟩ := by
  constructor
  · intro id j' h
    simp only [lookupKey] at h
    by_cases he : k = id
    · rw [if_pos he] at h
      cases h
      rw [hj]
      exact he
    · rw [if_neg he] at h
      exact Option.noConfusion h
  · intro r h
    exact Option.noConfusion h

/-- C3: the background execution wrapper always delivers a terminal status.
Starting from any consistent store holding a record for the job id, the final
memory record is identical under run_analysis_job and run_scenario_build_job,
its status is terminal (never Pending or Running), and it is Completed with
the serialized payload when the work returned normally, Failed with the
stringified exception when the work raised. -/
theorem c3_wrapper_always_terminal :
    ∀ (st : JobStore) (id : String) (j : JobResult) (outcome : WorkOutcome)
      (t1 t2 : Nat) (g1 s1 g2 s2 : Bool),
      keyConsistent st → lookupKey st.memory id = some j →
      ∃ j',
        lookupKey (run_analysis_job st id outcome t1 t2 g1 s1 g2 s2).memory id =
          some j' ∧
        lookupKey (run_scenario_build_job st id outcome t1 t2 g1 s1 g2 s2).memory id =
          some j' ∧
        isTerminal j'.status = true ∧
        (∀ p, outcome = .ok p → j'.status = .completed ∧ j'.result = some p) ∧
        (∀ e, outcome = .exc e → j'.status = .failed ∧ j'.error = some e) := by
  intro st id j outcome t1 t2 g1 s1 g2 s2 hk hm
  obtain ⟨j0, hg0⟩ := get_job_isSome st id j g1 hm
  have hid0 : j0.job_id = id := get_job_id st id j0 g1 hk hg0
  have hm1 : lookupKey (mark_running st id t1 g1 s1).2.memory id =
      some (applyUpdate j0 (some .running) none none t1) :=
    update_job_memory_lookup st id j0 _ _ _ t1 g1 s1 hg0 hid0
  have hk1 : keyConsistent (mark_running st id t1 g1 s1).2 :=
    update_job_keyConsistent st id _ _ _ t1 g1 s1 hk
  obtain ⟨j1, hg1⟩ := get_job_isSome (mark_running st id t1 g1 s1).2 id _ g2 hm1
  have hid1 : j1.job_id = id :=
    get_job_id (mark_running st id t1 g1 s1).2 id j1 g2 hk1 hg1
  cases outcome with
  | ok p =>
      refine ⟨applyUpdate j1 (some .completed) (some p) none t2, ?_, ?_, rfl,
              ?_, ?_⟩
      · exact update_job_memory_lookup _ id j1 _ _ _ t2 g2 s2 hg1 hid1
      · exact update_job_memory_lookup _ id j1 _ _ _ t2 g2 s2 hg1 hid1
      · intro p' hp
        cases hp
        exact ⟨rfl, rfl⟩
      · intro e he
        cases he
  | exc e =>
      refine ⟨applyUpdate j1 (some .failed) none (some e) t2, ?_, ?_, rfl,
              ?_, ?_⟩
      · exact update_job_memory_lookup _ id j1 _ _ _ t2 g2 s2 hg1 hid1
      · exact update_job_memory_lookup _ id j1 _ _ _ t2 g2 s2 hg1 hid1
      · intro p' hp
        cases hp
      · intro e' he
        cases he
        exact ⟨rfl, rfl⟩

/-- C3 witness: the wrapper run on a concrete one-record store, for a normal
return. -/
theorem c3_witness :
    ∃ j',
      lookupKey (run_analysis_job c3_store "a" (.ok [("k", "v")]) 1 2
        true true true true).memory "a" = some j' ∧
      lookupKey (run_scenario_build_job c3_store "a" (.ok [("k", "v")]) 1 2
        true true true true).memory "a" = some j' ∧
      isTerminal j'.status = true ∧
      (∀ p, (WorkOutcome.ok [("k", "v")] : WorkOutcome) = .ok p →
        j'.status = .completed ∧ j'.result = some p) ∧
      (∀ e, (WorkOutcome.ok [("k", "v")] : WorkOutcome) = .exc e →
        j'.status = .failed ∧ j'.error = some e) :=
  c3_wrapper_always_terminal c3_store "a"
    { job_id := "a", status := .pending, created_at := 0 }
    (.ok [("k", "v")]) 1 2 true true true true
    (keyConsistent_single "a" { job_id := "a", status := .pending, created_at := 0 } rfl)
    (by decide)

/- ==================================================================
   C4 — cancellation semantics
   ================================================================== -/

/-- C4: cancellation semantics.  (1) cancel on an unknown id answers NotFound
(HTTP 404) without touching the store; (2) cancel on a terminal record answers
Conflict (HTTP 400) without touching the store; (3) cancel on a Pending or
Running record answers success, forces the record to Failed with error
"Job cancelled by user" (which contains "cancelled"), and a second cancel on
the same id answers Conflict with the store unchanged. -/
theorem c4_cancel_semantics :
    (∀ (st : JobStore) (id : String) (now : Nat) (g0 g1 s1 : Bool),
       st.redis = none → lookupKey st.memory id = none →
       cancel_job st id now g0 g1 s1 = (.notFound, st) ∧
       cancelCode .notFound = 404) ∧
    (∀ (st : JobStore) (id : String) (j : JobResult) (now : Nat)
       (g0 g1 s1 : Bool),
       st.redis = none → lookupKey st.memory id = some j →
       isTerminal j.status = true →
       cancel_job st id now g0 g1 s1 = (.conflict, st) ∧
       cancelCode .conflict = 400) ∧
    (∀ (st : JobStore) (id : String) (j : JobResult) (now now2 : Nat)
       (g0 g1 s1 g0' g1' s1' : Bool),
       st.redis = none → lookupKey st.memory id = some j → j.job_id = id →
       isTerminal j.status = false →
       (cancel_job st id now g0 g1 s1).1 = .cancelled ∧
       lookupKey (cancel_job st id now g0 g1 s1).2.memory id =
         some { j with status := .failed, completed_at := some now,
                       error := some "Job cancelled by user" } ∧
       strContains "Job cancelled by user" "cancelled" = true ∧
       cancel_job (cancel_job st id now g0 g1 s1).2 id now2 g0' g1' s1' =
         (.conflict, (cancel_job st id now g0 g1 s1).2)) := by
  refine ⟨?notfound, ?conflict, ?cancel⟩
  case notfound =>
    intro st id now g0 g1 s1 hr hm
    have hget : get_job st id g0 = none := by
      rw [get_job_redis_none st id g0 hr, hm]
    exact ⟨by simp [cancel_job, hget], rfl⟩
  case conflict =>
    intro st id j now g0 g1 s1 hr hm hterm
    have hget : get_job st id g0 = some j := by
      rw [get_job_redis_none st id g0 hr, hm]
    have hor : j.status = .completed ∨ j.status = .failed := by
      cases hst : j.status with
      | completed => exact Or.inl rfl
      | failed => exact Or.inr rfl
      | pending => rw [hst] at hterm; exact absurd hterm (by decide)
      | running => rw [hst] at hterm; exact absurd hterm (by decide)
    refine ⟨?_, rfl⟩
    simp only [cancel_job, hget]
    rw [if_pos hor]
  case cancel =>
    intro st id j now now2 g0 g1 s1 g0' g1' s1' hr hm hid hterm
    have hget0 : get_job st id g0 = some j := by
      rw [get_job_redis_none st id g0 hr, hm]
    have hnot : ¬(j.status = .completed ∨ j.status = .failed) := by
      rintro (hst | hst) <;> rw [hst] at hterm <;> exact absurd hterm (by decide)
    have hcan : cancel_job st id now g0 g1 s1 =
        (.cancelled, (mark_failed st id "Job cancelled by user" now g1 s1).2) := by
      simp only [cancel_job, hget0]
      rw [if_neg hnot]
    have hget1 : get_job st id g1 = some j := by
      rw [get_job_redis_none st id g1 hr, hm]
    have hm2 : lookupKey (mark_failed st id "Job cancelled by user" now g1 s1).2.memory id =
        some (applyUpdate j (some .failed) none (some "Job cancelled by user") now) :=
      update_job_memory_lookup st id j _ _ _ now g1 s1 hget1 hid
    have hr2 : (mark_failed st id "Job cancelled by user" now g1 s1).2.redis = none :=
      update_job_redis_none st id _ _ _ now g1 s1 hr
    refine ⟨by rw [hcan], ?_, by decide, ?_⟩
    · rw [hcan]
      exact hm2
    · rw [hcan]
      have hget2 : get_job (mark_failed st id "Job cancelled by user" now g1 s1).2 id g0' =
          some (applyUpdate j (some .failed) none (some "Job cancelled by user") now) := by
        rw [get_job_redis_none _ id g0' hr2, hm2]
      simp only [cancel_job, hget2]
      have hcond :
          (applyUpdate j (some JobStatus.failed) none
            (some "Job cancelled by user") now).status = JobStatus.completed ∨
          (applyUpdate j (some JobStatus.failed) none
            (some "Job cancelled by user") now).status = JobStatus.failed :=
        Or.inr rfl
      rw [if_pos hcond]

/-- C4 witness: the three branches at concrete inputs — cancel of the Running
record of `c4_store` succeeds and a repeat conflicts; cancel of the terminal
record of `c1_store` conflicts; cancel of an absent id is NotFound. -/
theorem c4_witness :
    (cancel_job c4_store "zzz" 3 true true true = (.notFound, c4_store) ∧
     cancelCode .notFound = 404) ∧
    (cancel_job c1_store "a" 3 true true true = (.conflict, c1_store) ∧
     cancelCode .conflict = 400) ∧
    ((cancel_job c4_store "a" 3 true true true).1 = .cancelled ∧
     lookupKey (cancel_job c4_store "a" 3 true true true).2.memory "a" =
       some { job_id := "a", status := .failed, created_at := 0,
              completed_at := some 3, result := none,
              error := some "Job cancelled by user" } ∧
     strContains "Job cancelled by user" "cancelled" = true ∧
     cancel_job (cancel_job c4_store "a" 3 true true true).2 "a" 4 true true true =
       (.conflict, (cancel_job c4_store "a" 3 true true true).2)) :=
  ⟨c4_cancel_semantics.1 c4_store "zzz" 3 true true true rfl (by decide),
   c4_cancel_semantics.2.1 c1_store "a"
     { job_id := "a", status := .failed, created_at := 0,
       completed_at := some 1, result := none, error := some "boom" }
     3 true true true rfl (by decide) (by decide),
   c4_cancel_semantics.2.2 c4_store "a"
     { job_id := "a", status := .running, created_at := 0 }
     3 4 true true true true true true rfl (by decide) rfl (by decide)⟩

/- ==================================================================
   C5 — distributed-queue status mapping
   ================================================================== -/

/-- C5 counterexample: the native state "RETRY" is outside the fixed map, yet
get_task_status passes it through lowercased as "retry" with no error, instead
of mapping it to "failed" with an "unknown state" error as claimed. -/
theorem c5_counterexample :
    lookupKey status_map "RETRY" = none ∧
    (get_task_status "t1" "RETRY" none).status = "retry" ∧
    (get_task_status "t1" "RETRY" none).status ≠ "failed" ∧
    (get_task_status "t1" "RETRY" none).error = none := by
  decide

/-- C5 (amended): the five fixed native states map as claimed
(PENDING→pending, STARTED→running, SUCCESS→completed, FAILURE→failed,
REVOKED→failed), but every native state outside the fixed set is passed
through as its lowercased raw string — with no error attached unless the
state is FAILURE — rather than being mapped to failed with an
"unknown state" error. -/
theorem c5_status_mapping :
    ∀ (tid : String) (payload : Option String),
      (get_task_status tid "PENDING" payload).status = "pending" ∧
      (get_task_status tid "STARTED" payload).status = "running" ∧
      (get_task_status tid "SUCCESS" payload).status = "completed" ∧
      (get_task_status tid "FAILURE" payload).status = "failed" ∧
      (get_task_status tid "REVOKED" payload).status = "failed" ∧
      (∀ s, lookupKey status_map s = none →
        (get_task_status tid s payload).status = strLower s ∧
        (get_task_status tid s payload).error = none) := by
  intro tid payload
  refine ⟨rfl, rfl, rfl, rfl, rfl, ?_⟩
  intro s hs
  have hfail : ¬(s = "FAILURE") := by
    intro h
    rw [h] at hs
    exact absurd hs (by decide)
  constructor
  · show (lookupKey status_map s).getD (strLower s) = strLower s
    rw [hs]
    rfl
  · show (if s = "FAILURE" then some (payload.getD "None") else none) = none
    rw [if_neg hfail]

/-- C5 amended witness: the mapping evaluated at a concrete task, including
the passthrough branch at "RETRY". -/
theorem c5_witness :
    (get_task_status "t" "PENDING" none).status = "pending" ∧
    (get_task_status "t" "REVOKED" none).status = "failed" ∧
    (get_task_status "t" "RETRY" none).status = strLower "RETRY" ∧
    (get_task_status "t" "RETRY" none).error = none :=
  ⟨(c5_status_mapping "t" none).1, (c5_status_mapping "t" none).2.2.2.2.1,
   ((c5_status_mapping "t" none).2.2.2.2.2 "RETRY" (by decide)).1,
   ((c5_status_mapping "t" none).2.2.2.2.2 "RETRY" (by decide)).2⟩

/- ==================================================================
   C6 — sandbox timeout result
   ================================================================== -/

/-- C6: when the subprocess does not exit within the timeout (the
asyncio.TimeoutError branch, in which the process is killed), _run_process
returns success = false, exit_code = −1, and an error containing
"timed out". -/
theorem c6_timeout_result :
    (run_process .timedOut).success = false ∧
    (run_process .timedOut).exit_code = -1 ∧
    ∃ e, (run_process .timedOut).error = some e ∧
         strContains e "timed out" = true :=
  ⟨rfl, rfl, "Test timed out", rfl, by decide⟩

/- ==================================================================
   C7 — "select" steps
   ================================================================== -/

/-- C7 counterexample: a step whose action is "select" emits no statement at
all — in both flavors the synthesized output is identical to that of an empty
step list — refuting the claim that exactly one option-choosing statement is
emitted. -/
theorem c7_counterexample :
    stepToCypressLines "https://base" select_step = [] ∧
    stepToPlaywrightLines "https://base" select_step = [] ∧
    steps_to_cypress [select_step] "https://base" =
      steps_to_cypress [] "https://base" ∧
    steps_to_playwright [select_step] "https://base" =
      steps_to_playwright [] "https://base" := by
  decide

/-- C7 (amended): for every step whose action is "select" (whatever its
selector and value), both synthesizers emit zero statements: "select" is not
among the five recognized actions and is silently skipped. -/
theorem c7_select_emits_nothing :
    ∀ (step : Step) (base_url : String), step.type = "select" →
      stepToCypressLines base_url step = [] ∧
      stepToPlaywrightLines base_url step = [] := by
  intro step b h
  unfold stepToCypressLines stepToPlaywrightLines
  rw [h]
  exact ⟨rfl, rfl⟩

/-- C7 amended witness: the select step evaluated concretely. -/
theorem c7_witness :
    stepToCypressLines "https://base" select_step = [] ∧
    stepToPlaywrightLines "https://base" select_step = [] :=
  c7_select_emits_nothing select_step "https://base" rfl

/- ==================================================================
   C8 — determinism and content of the synthesized scripts
   ================================================================== -/

/-- C8: the synthesizers are pure functions, so two calls on identical
(steps, baseUrl) input yield byte-identical output in each flavor; on the
concrete input [navigate https://x, click #btn, type #inp hello, wait 500]
with base URL https://base, the emitted statements contain exactly one
navigate to https://x, one click on #btn, one type/fill of #inp with hello
and one wait of 500, and the base URL appears nowhere in either output. -/
theorem c8_determinism :
    (∀ (steps : List Step) (b : String),
      steps_to_cypress steps b = steps_to_cypress steps b ∧
      steps_to_playwright steps b = steps_to_playwright steps b) ∧
    steps_to_cypress c8_steps "https://base" =
      steps_to_cypress c8_steps "https://base" ∧
    steps_to_playwright c8_steps "https://base" =
      steps_to_playwright c8_steps "https://base" ∧
    ((c8_steps.map (stepToCypressLines "https://base")).flatten).count
      "    cy.visit(\x27https://x\x27);" = 1 ∧
    ((c8_steps.map (stepToCypressLines "https://base")).flatten).count
      "    cy.get(\x27#btn\x27).click();" = 1 ∧
    ((c8_steps.map (stepToCypressLines "https://base")).flatten).count
      "    cy.get(\x27#inp\x27).type(\x27hello\x27);" = 1 ∧
    ((c8_steps.map (stepToCypressLines "https://base")).flatten).count
      "    cy.wait(500);" = 1 ∧
    ((c8_steps.map (stepToCypressLines "https://base")).flatten).length = 4 ∧
    ((c8_steps.map (stepToPlaywrightLines "https://base")).flatten).count
      "  await page.goto(\x27https://x\x27);" = 1 ∧
    ((c8_steps.map (stepToPlaywrightLines "https://base")).flatten).count
      "  await page.click(\x27#btn\x27);" = 1 ∧
    ((c8_steps.map (stepToPlaywrightLines "https://base")).flatten).count
      "  await page.fill(\x27#inp\x27, \x27hello\x27);" = 1 ∧
    ((c8_steps.map (stepToPlaywrightLines "https://base")).flatten).count
      "  await page.waitForTimeout(500);" = 1 ∧
    ((c8_steps.map (stepToPlaywrightLines "https://base")).flatten).length = 4 ∧
    strContains (steps_to_cypress c8_steps "https://base") "https://base" = false ∧
    strContains (steps_to_playwright c8_steps "https://base") "https://base" = false := by
  refine ⟨fun steps b => ⟨rfl, rfl⟩, ?_⟩
  decide

/- ==================================================================
   C9 — list_jobs
   ================================================================== -/

theorem collect_redis_shape (f? : Option JobStatus) (lim : Nat) :
    ∀ (entries acc : List JobResult),
      ∃ s, collect_redis entries f? lim acc = acc ++ s ∧
           s.Sublist entries ∧ ∀ j ∈ s, statusMatches f? j = true := by
  intro entries
  induction entries with
  | nil =>
      intro acc
      exact ⟨[], by simp [collect_redis], List.nil_sublist [], by simp⟩
  | cons j rest ih =>
      intro acc
      by_cases hm : statusMatches f? j = true
      · by_cases hl : lim ≤ (acc ++ [j]).length
        · refine ⟨[j], ?_, (List.nil_sublist rest).cons₂ j, ?_⟩
          · simp only [collect_redis]
            rw [if_pos hm, if_pos hl]
          · intro x hx
            rw [List.mem_singleton] at hx
            rw [hx]
            exact hm
        · obtain ⟨s', hs', hsub', hall'⟩ := ih (acc ++ [j])
          refine ⟨j :: s', ?_, hsub'.cons₂ j, ?_⟩
          · simp only [collect_redis]
            rw [if_pos hm, if_neg hl, hs', List.append_assoc]
            rfl
          · intro x hx
            rcases List.mem_cons.mp hx with hx | hx
            · rw [hx]; exact hm
            · exact hall' x hx
      · obtain ⟨s', hs', hsub', hall'⟩ := ih acc
        refine ⟨s', ?_, hsub'.cons j, hall'⟩
        simp only [collect_redis]
        rw [if_neg hm, hs']

theorem collect_memory_shape (f? : Option JobStatus) (lim : Nat) :
    ∀ (entries acc : List JobResult),
      ∃ s, collect_memory entries f? lim acc = acc ++ s ∧
           s.Sublist entries ∧
           ∀ j ∈ s, statusMatches f? j = true ∧
             ∀ a ∈ acc, a.job_id ≠ j.job_id := by
  intro entries
  induction entries with
  | nil =>
      intro acc
      exact ⟨[], by simp [collect_memory], List.nil_sublist [], by simp⟩
  | cons j rest ih =>
      intro acc
      by_cases hc : (statusMatches f? j &&
          !(acc.any fun a => a.job_id == j.job_id)) = true
      · have hm : statusMatches f? j = true := (Bool.and_eq_true .. ▸ hc).1
        have hany : (acc.any fun a => a.job_id == j.job_id) = false := by
          have := (Bool.and_eq_true .. ▸ hc).2
          simpa using this
        have hne : ∀ a ∈ acc, a.job_id ≠ j.job_id := by
          intro a ha
          have := List.any_eq_false.mp hany a ha
          simpa using this
        by_cases hl : lim ≤ (acc ++ [j]).length
        · refine ⟨[j], ?_, (List.nil_sublist rest).cons₂ j, ?_⟩
          · simp only [collect_memory]
            rw [if_pos hc, if_pos hl]
          · intro x hx
            rw [List.mem_singleton] at hx
            rw [hx]
            exact ⟨hm, hne⟩
        · obtain ⟨s', hs', hsub', hall'⟩ := ih (acc ++ [j])
          refine ⟨j :: s', ?_, hsub'.cons₂ j, ?_⟩
          · simp only [collect_memory]
            rw [if_pos hc, if_neg hl, hs', List.append_assoc]
            rfl
          · intro x hx
            rcases List.mem_cons.mp hx with hx | hx
            · rw [hx]; exact ⟨hm, hne⟩
            · obtain ⟨hx1, hx2⟩ := hall' x hx
              exact ⟨hx1, fun a ha => hx2 a (List.mem_append_left [j] ha)⟩
      · obtain ⟨s', hs', hsub', hall'⟩ := ih acc
        refine ⟨s', ?_, hsub'.cons j, hall'⟩
        simp only [collect_memory]
        rw [if_neg hc, hs']

theorem collect_memory_pairwise (f? : Option JobStatus) (lim : Nat) :
    ∀ (entries acc : List JobResult),
      acc.Pairwise (fun a b => a.job_id ≠ b.job_id) →
      (collect_memory entries f? lim acc).Pairwise
        (fun a b => a.job_id ≠ b.job_id) := by
  intro entries
  induction entries with
  | nil =>
      intro acc hacc
      simpa [collect_memory] using hacc
  | cons j rest ih =>
      intro acc hacc
      by_cases hc : (statusMatches f? j &&
          !(acc.any fun a => a.job_id == j.job_id)) = true
      · have hany : (acc.any fun a => a.job_id == j.job_id) = false := by
          have := (Bool.and_eq_true .. ▸ hc).2
          simpa using this
        have hne : ∀ a ∈ acc, a.job_id ≠ j.job_id := by
          intro a ha
          have := List.any_eq_false.mp hany a ha
          simpa using this
        have hacc2 : (acc ++ [j]).Pairwise (fun a b => a.job_id ≠ b.job_id) := by
          rw [List.pairwise_append]
          refine ⟨hacc, List.pairwise_singleton .., ?_⟩
          intro a ha b hb
          rw [List.mem_singleton] at hb
          rw [hb]
          exact hne a ha
        by_cases hl : lim ≤ (acc ++ [j]).length
        · simp only [collect_memory]
          rw [if_pos hc, if_pos hl]
          exact hacc2
        · simp only [collect_memory]
          rw [if_pos hc, if_neg hl]
          exact ih (acc ++ [j]) hacc2
      · simp only [collect_memory]
        rw [if_neg hc]
        exact ih acc hacc

theorem redisCollected_props (st : JobStore) (f? : Option JobStatus) (lim : Nat) :
    (redisCollected st f? lim).Sublist (redisValues st) ∧
    ∀ j ∈ redisCollected st f? lim, statusMatches f? j = true := by
  obtain ⟨mem, red⟩ := st
  cases red with
  | none => exact ⟨List.nil_sublist [], by simp [redisCollected]⟩
  | some r =>
      obtain ⟨s, hs, hsub, hall⟩ := collect_redis_shape f? lim (r.map Prod.snd) []
      have he : redisCollected ⟨mem, some r⟩ f? lim = s := by
        simpa [redisCollected] using hs
      rw [he]
      exact ⟨hsub, hall⟩

theorem insertDesc_perm (j : JobResult) :
    ∀ l, (insertDesc j l).Perm (j :: l) := by
  intro l
  induction l with
  | nil => exact List.Perm.refl _
  | cons k rest ih =>
      by_cases h : k.created_at < j.created_at
      · simp [insertDesc, h]
      · simp only [insertDesc, if_neg h]
        exact (ih.cons k).trans (List.Perm.swap j k rest)

theorem foldl_insertDesc_perm :
    ∀ (l acc : List JobResult),
      (l.foldl (fun acc j => insertDesc j acc) acc).Perm (l ++ acc) := by
  intro l
  induction l with
  | nil => intro acc; exact List.Perm.refl _
  | cons j rest ih =>
      intro acc
      have h1 := ih (insertDesc j acc)
      have h2 : (rest ++ insertDesc j acc).Perm (rest ++ j :: acc) :=
        List.Perm.append_left rest (insertDesc_perm j acc)
      have h3 : (rest ++ j :: acc).Perm (j :: (rest ++ acc)) := List.perm_middle
      exact (h1.trans h2).trans h3

theorem sortDesc_perm (l : List JobResult) : (sortDesc l).Perm l := by
  have := foldl_insertDesc_perm l []
  simpa [sortDesc] using this

theorem insertDesc_mem (j b : JobResult) (l : List JobResult) :
    b ∈ insertDesc j l ↔ b = j ∨ b ∈ l := by
  rw [(insertDesc_perm j l).mem_iff, List.mem_cons]

theorem insertDesc_sorted (j : JobResult) :
    ∀ l, l.Pairwise (fun a b => b.created_at ≤ a.created_at) →
      (insertDesc j l).Pairwise (fun a b => b.created_at ≤ a.created_at) := by
  intro l
  induction l with
  | nil => intro _; simp [insertDesc]
  | cons k rest ih =>
      intro hp
      rw [List.pairwise_cons] at hp
      obtain ⟨hk, hrest⟩ := hp
      by_cases h : k.created_at < j.created_at
      · simp only [insertDesc, if_pos h]
        rw [List.pairwise_cons]
        constructor
        · intro b hb
          rcases List.mem_cons.mp hb with hb | hb
          · rw [hb]; exact Nat.le_of_lt h
          · exact Nat.le_trans (hk b hb) (Nat.le_of_lt h)
        · rw [List.pairwise_cons]
          exact ⟨hk, hrest⟩
      · simp only [insertDesc, if_neg h]
        rw [List.pairwise_cons]
        constructor
        · intro b hb
          rcases (insertDesc_mem j b rest).mp hb with hb | hb
          · rw [hb]; exact Nat.le_of_not_lt h
          · exact hk b hb
        · exact ih hrest

theorem foldl_insertDesc_sorted :
    ∀ (l acc : List JobResult),
      acc.Pairwise (fun a b => b.created_at ≤ a.created_at) →
      (l.foldl (fun acc j => insertDesc j acc) acc).Pairwise
        (fun a b => b.created_at ≤ a.created_at) := by
  intro l
  induction l with
  | nil => intro acc h; exact h
  | cons j rest ih =>
      intro acc h
      exact ih (insertDesc j acc) (insertDesc_sorted j acc h)

theorem sortDesc_sorted (l : List JobResult) :
    (sortDesc l).Pairwise (fun a b => b.created_at ≤ a.created_at) :=
  foldl_insertDesc_sorted l [] (List.Pairwise.nil)

theorem list_jobs_eq (st : JobStore) (f? : Option JobStatus) (lim : Nat) :
    list_jobs st f? lim true =
      (sortDesc (collect_memory (st.memory.map Prod.snd) f? lim
        (redisCollected st f? lim))).take lim := by
  obtain ⟨mem, red⟩ := st
  cases red <;> rfl

/-- C9 counterexample: in the reachable store `c9_store` (create mirrored to
Redis, then mark_completed whose Redis save failed) the id "a" is present in
both backends, the local copy is terminal (Completed) while the Redis copy is
still Pending, and list_jobs returns the stale Pending Redis copy — refuting
"the returned copy is the one with the more advanced/terminal status (never a
stale copy over a fresher one)". -/
theorem c9_counterexample :
    lookupKey c9_store.memory "a" = some c9_fresh ∧
    c9_store.redis = some [("a", c9_stale)] ∧
    isTerminal c9_fresh.status = true ∧
    c9_stale.status = .pending ∧
    list_jobs c9_store none 10 true = [c9_stale] := by
  decide

/-- C9 (amended): for every status filter and limit, list_jobs returns at
most limit records, every returned record matches the filter, the records are
ordered by created_at descending with at most one record per job id — but
when an id is present in both backends the returned copy is the durable
(Redis) one whenever the scan collected it, regardless of which copy is more
advanced; the local copy is returned only when no Redis record with that id
was collected. -/
theorem c9_list_properties :
    ∀ (st : JobStore) (f? : Option JobStatus) (lim : Nat),
      (redisValues st).Pairwise (fun a b => a.job_id ≠ b.job_id) →
      (list_jobs st f? lim true).length ≤ lim ∧
      (∀ j ∈ list_jobs st f? lim true, statusMatches f? j = true) ∧
      (list_jobs st f? lim true).Pairwise
        (fun a b => b.created_at ≤ a.created_at) ∧
      (list_jobs st f? lim true).Pairwise (fun a b => a.job_id ≠ b.job_id) ∧
      (∀ j ∈ list_jobs st f? lim true,
        j ∈ redisValues st ∨
        (j ∈ st.memory.map Prod.snd ∧
          ∀ r ∈ redisCollected st f? lim, r.job_id ≠ j.job_id)) := by
  intro st f? lim hnd
  have hsymm : ∀ {x y : JobResult}, x.job_id ≠ y.job_id → y.job_id ≠ x.job_id :=
    fun h he => h he.symm
  have hlje := list_jobs_eq st f? lim
  obtain ⟨hrsub, hrall⟩ := redisCollected_props st f? lim
  obtain ⟨s2, hs2eq, hs2sub, hs2all⟩ :=
    collect_memory_shape f? lim (st.memory.map Prod.snd) (redisCollected st f? lim)
  have hmem_all : ∀ j ∈ list_jobs st f? lim true,
      j ∈ collect_memory (st.memory.map Prod.snd) f? lim
        (redisCollected st f? lim) := by
    intro j hj
    rw [hlje] at hj
    have h1 : j ∈ sortDesc (collect_memory (st.memory.map Prod.snd) f? lim
        (redisCollected st f? lim)) := (List.take_sublist _ _).subset hj
    exact (sortDesc_perm _).subset h1
  refine ⟨?_, ?_, ?_, ?_, ?_⟩
  · rw [hlje]
    exact List.length_take_le _ _
  · intro j hj
    have hja := hmem_all j hj
    rw [hs2eq] at hja
    rcases List.mem_append.mp hja with h | h
    · exact hrall j h
    · exact (hs2all j h).1
  · rw [hlje]
    exact (sortDesc_sorted _).sublist (List.take_sublist _ _)
  · rw [hlje]
    have hrcpw : (redisCollected st f? lim).Pairwise
        (fun a b => a.job_id ≠ b.job_id) := hnd.sublist hrsub
    have hallpw := collect_memory_pairwise f? lim (st.memory.map Prod.snd)
      (redisCollected st f? lim) hrcpw
    have hsorted := ((sortDesc_perm _).pairwise_iff hsymm).mpr hallpw
    exact hsorted.sublist (List.take_sublist _ _)
  · intro j hj
    have hja := hmem_all j hj
    rw [hs2eq] at hja
    rcases List.mem_append.mp hja with h | h
    · exact Or.inl (hrsub.subset h)
    · exact Or.inr ⟨hs2sub.subset h, (hs2all j h).2⟩

/-- C9 amended witness: the amended listing properties evaluated on a
concrete dual-backend store in which one id appears on both sides. -/
theorem c9_witness :
    (list_jobs c9w_store none 10 true).length ≤ 10 ∧
    (∀ j ∈ list_jobs c9w_store none 10 true, statusMatches none j = true) ∧
    (list_jobs c9w_store none 10 true).Pairwise
      (fun a b => b.created_at ≤ a.created_at) ∧
    (list_jobs c9w_store none 10 true).Pairwise
      (fun a b => a.job_id ≠ b.job_id) ∧
    (∀ j ∈ list_jobs c9w_store none 10 true,
      j ∈ redisValues c9w_store ∨
      (j ∈ c9w_store.memory.map Prod.snd ∧
        ∀ r ∈ redisCollected c9w_store none 10, r.job_id ≠ j.job_id)) :=
  c9_list_properties c9w_store none 10 (by decide)

/-- C10 witness: creating over the Failed record of `c1_store`. -/
theorem c10_witness :
    (create_job c1_store "a" 7 true).1 =
      { job_id := "a", status := .pending, created_at := 7,
        completed_at := none, result := none, error := none } ∧
    lookupKey (create_job c1_store "a" 7 true).2.memory "a" =
      some { job_id := "a", status := .pending, created_at := 7,
             completed_at := none, result := none, error := none } :=
  c10_create_overwrites c1_store "a"
    { job_id := "a", status := .failed, created_at := 0,
      completed_at := some 1, result := none, error := some "boom" }
    7 true (by decide)

end AutoTest
